import Mathlib

/-!
Shallow embedding of the DSR (Debt Service Ratio) calculation engine
(`calculateDSR` in `src/App.tsx`) over exact rational arithmetic, together
with theorems settling the specification claims about it.

The engine has three parts, mirrored by the definitions below:
* the actual month-by-month amortization loop (lines 52–92 of the source),
* the stress-rate loop that only retains its accumulated interest
  (lines 120–143),
* the DSR aggregation (lines 97–150).
JavaScript numbers are modelled by `ℚ`; JavaScript division is total on `ℚ`
with `x / 0 = 0` (the source has one division whose divisor can vanish, see
the zero-rate theorems below).
-/

namespace DSR

/-- Repayment methods (`RepaymentMethod` in the source):
`PrincipalInterestEqual` is equal-installment (원리금균등),
`PrincipalEqual` is equal-principal (원금균등). -/
inductive RepaymentMethod
  | PrincipalInterestEqual
  | PrincipalEqual
deriving DecidableEq

/-- Collateral types (`CollateralType` in the source). -/
inductive CollateralType
  | Housing
  | Other
deriving DecidableEq

/-- The engine's input record (`LoanInputs` in the source).  Term and grace
period are integer year counts per the data model. -/
structure LoanInputs where
  annualIncome : ℚ
  loanAmount : ℚ
  interestRate : ℚ
  loanTermYear : ℕ
  gracePeriodYear : ℕ
  repaymentMethod : RepaymentMethod
  collateralType : CollateralType
  applyStressDsr : Bool
deriving DecidableEq

/-- One element of the displayed schedule (`MonthlyPayment` in the source). -/
structure MonthlyPayment where
  month : ℕ
  payment : ℚ
  principal : ℚ
  interest : ℚ
  balance : ℚ
deriving DecidableEq

/-- The engine's output record (`CalculationResult` in the source). -/
structure CalculationResult where
  dsrRatio : ℚ
  monthlyPayments : List MonthlyPayment
  totalInterest : ℚ
  totalPayment : ℚ
  avgMonthlyPayment : ℚ
  stressDsrRateUsed : ℚ
deriving DecidableEq

/-- The annuity payment expression of source lines 74 and 135:
`loanAmount * r * (1+r)^n / ((1+r)^n - 1)`. -/
def annuityPmt (loanAmount r : ℚ) (n : ℕ) : ℚ :=
  loanAmount * r * (1 + r) ^ n / ((1 + r) ^ n - 1)

/-- The principal portion paid in month `m` (1-based) at running balance `b`:
`0` during the grace period, else `loanAmount / effectiveRemainingMonths`
for equal-principal, else annuity payment minus interest (lines 54–76;
the stress loop's lines 127–137 compute the same expression at its rate). -/
def principalOf (loanAmount : ℚ) (method : RepaymentMethod)
    (totalMonths graceMonths : ℕ) (r : ℚ) (m : ℕ) (b : ℚ) : ℚ :=
  if m ≤ graceMonths then 0
  else
    match method with
    | RepaymentMethod.PrincipalEqual =>
        loanAmount / ((totalMonths - graceMonths : ℕ) : ℚ)
    | RepaymentMethod.PrincipalInterestEqual =>
        annuityPmt loanAmount r (totalMonths - graceMonths) - b * r

/-- The total payment in month `m` at running balance `b` (`monthlyTotal`,
lines 55–76): interest only in grace, principal plus interest for
equal-principal, the annuity payment for equal-installment. -/
def paymentOf (loanAmount : ℚ) (method : RepaymentMethod)
    (totalMonths graceMonths : ℕ) (r : ℚ) (m : ℕ) (b : ℚ) : ℚ :=
  if m ≤ graceMonths then b * r
  else
    match method with
    | RepaymentMethod.PrincipalEqual =>
        loanAmount / ((totalMonths - graceMonths : ℕ) : ℚ) + b * r
    | RepaymentMethod.PrincipalInterestEqual =>
        annuityPmt loanAmount r (totalMonths - graceMonths)

/-- Running state of the actual-schedule loop: the mutable variables
`remainingBalance`, `totalInterest`, `totalPayment`, `monthlyPayments`
of source lines 35–49. -/
structure LoopState where
  balance : ℚ
  totalInterest : ℚ
  totalPayment : ℚ
  payments : List MonthlyPayment
deriving DecidableEq

/-- State of the actual-schedule loop (source lines 52–92) after processing
months `1 .. k`.  Each iteration computes the month's interest
(`remainingBalance * monthlyRate`), principal and total payment, decrements
the balance, floors it at zero, pushes the entry and accumulates totals. -/
def actualLoop (loanAmount : ℚ) (method : RepaymentMethod)
    (totalMonths graceMonths : ℕ) (r : ℚ) : ℕ → LoopState
  | 0 => ⟨loanAmount, 0, 0, []⟩
  | k + 1 =>
    let s := actualLoop loanAmount method totalMonths graceMonths r k
    let m := k + 1
    let interestPayment := s.balance * r
    let principalPayment := principalOf loanAmount method totalMonths graceMonths r m s.balance
    let monthlyTotal := paymentOf loanAmount method totalMonths graceMonths r m s.balance
    let newBalance :=
      if s.balance - principalPayment < 0 then 0 else s.balance - principalPayment
    ⟨newBalance, s.totalInterest + interestPayment, s.totalPayment + monthlyTotal,
      s.payments ++ [⟨m, monthlyTotal, principalPayment, interestPayment, newBalance⟩]⟩

/-- State `(stressBalance, totalStressInterest)` of the stress loop (source
lines 124–143) after processing months `1 .. k`:
interest `stressBalance * stressMonthlyRate` is accumulated every month, the
principal schedule is the same as the actual loop's at the stress rate, and
the balance is floored at zero. -/
def stressLoop (loanAmount : ℚ) (method : RepaymentMethod)
    (totalMonths graceMonths : ℕ) (sr : ℚ) : ℕ → ℚ × ℚ
  | 0 => (loanAmount, 0)
  | k + 1 =>
    let s := stressLoop loanAmount method totalMonths graceMonths sr k
    let m := k + 1
    let stressInt := s.1 * sr
    let stressPrincipal := principalOf loanAmount method totalMonths graceMonths sr m s.1
    let newBalance := s.1 - stressPrincipal
    (if newBalance < 0 then 0 else newBalance, s.2 + stressInt)

/-- The stress-rate add-on (source line 43): 3.0 percentage points when the
flag is set, otherwise 0. -/
def stressDsrAddOn (applyStressDsr : Bool) : ℚ :=
  if applyStressDsr then 3 else 0

/-- Annual principal burden (source lines 97–115).  For housing collateral
the divisor is `loanTermYear - gracePeriodYear` (computed in `ℤ`, as the
source's subtraction can be non-positive) when positive, with the loan
amount itself as the degenerate fallback; for other collateral the divisor
is the full loan term. -/
def annualPrincipalBurden (inp : LoanInputs) : ℚ :=
  match inp.collateralType with
  | CollateralType.Housing =>
      if 0 < (inp.loanTermYear : ℤ) - (inp.gracePeriodYear : ℤ) then
        inp.loanAmount / (((inp.loanTermYear : ℤ) - (inp.gracePeriodYear : ℤ) : ℤ) : ℚ)
      else
        inp.loanAmount
  | CollateralType.Other => inp.loanAmount / (inp.loanTermYear : ℚ)

/-- Total interest accumulated by the stress loop over the full term
(`totalStressInterest`, source lines 120–143), at monthly rate
`(interestRate + addOn) / 100 / 12`. -/
def totalStressInterest (inp : LoanInputs) : ℚ :=
  (stressLoop inp.loanAmount inp.repaymentMethod (inp.loanTermYear * 12)
    (inp.gracePeriodYear * 12)
    ((inp.interestRate + stressDsrAddOn inp.applyStressDsr) / 100 / 12)
    (inp.loanTermYear * 12)).2

/-- Annual interest burden (source line 145): stress-loop total interest
divided by the full loan term. -/
def annualInterestBurden (inp : LoanInputs) : ℚ :=
  totalStressInterest inp / (inp.loanTermYear : ℚ)

/-- The engine (`calculateDSR`, source lines 23–160): runs the actual loop
at the nominal monthly rate, the stress loop at the stressed monthly rate,
and aggregates the DSR ratio. -/
def calculateDSR (inp : LoanInputs) : CalculationResult :=
  let totalMonths := inp.loanTermYear * 12
  let graceMonths := inp.gracePeriodYear * 12
  let monthlyRate := inp.interestRate / 100 / 12
  let stressInterestRate := inp.interestRate + stressDsrAddOn inp.applyStressDsr
  let s := actualLoop inp.loanAmount inp.repaymentMethod totalMonths graceMonths
    monthlyRate totalMonths
  let annualRepaymentForDsr := annualPrincipalBurden inp + annualInterestBurden inp
  { dsrRatio :=
      if 0 < inp.annualIncome then annualRepaymentForDsr / inp.annualIncome * 100 else 0
    monthlyPayments := s.payments
    totalInterest := s.totalInterest
    totalPayment := s.totalPayment
    avgMonthlyPayment := s.totalPayment / (totalMonths : ℚ)
    stressDsrRateUsed := stressInterestRate }

/-- Fallback entry used with `List.getD` in concrete statements. -/
def dfltEntry : MonthlyPayment := ⟨0, 0, 0, 0, 0⟩

/-! ### Structural lemmas about the loops -/

/-- The schedule entry the actual loop pushes at month `i + 1` (0-based
index `i`): its interest, principal and payment are computed from the
balance after `i` months, its `balance` field is the balance after
`i + 1` months. -/
def entryAt (L : ℚ) (method : RepaymentMethod) (T G : ℕ) (r : ℚ) (i : ℕ) :
    MonthlyPayment :=
  ⟨i + 1,
   paymentOf L method T G r (i + 1) (actualLoop L method T G r i).balance,
   principalOf L method T G r (i + 1) (actualLoop L method T G r i).balance,
   (actualLoop L method T G r i).balance * r,
   (actualLoop L method T G r (i + 1)).balance⟩

lemma actualLoop_zero (L : ℚ) (method : RepaymentMethod) (T G : ℕ) (r : ℚ) :
    actualLoop L method T G r 0 = ⟨L, 0, 0, []⟩ := rfl

lemma actualLoop_succ (L : ℚ) (method : RepaymentMethod) (T G : ℕ) (r : ℚ) (k : ℕ) :
    actualLoop L method T G r (k + 1) =
      ⟨if (actualLoop L method T G r k).balance -
            principalOf L method T G r (k + 1) (actualLoop L method T G r k).balance < 0
          then 0
          else (actualLoop L method T G r k).balance -
            principalOf L method T G r (k + 1) (actualLoop L method T G r k).balance,
        (actualLoop L method T G r k).totalInterest +
          (actualLoop L method T G r k).balance * r,
        (actualLoop L method T G r k).totalPayment +
          paymentOf L method T G r (k + 1) (actualLoop L method T G r k).balance,
        (actualLoop L method T G r k).payments ++ [entryAt L method T G r k]⟩ := rfl

lemma balance_succ (L : ℚ) (method : RepaymentMethod) (T G : ℕ) (r : ℚ) (k : ℕ) :
    (actualLoop L method T G r (k + 1)).balance =
      if (actualLoop L method T G r k).balance -
            principalOf L method T G r (k + 1) (actualLoop L method T G r k).balance < 0
        then 0
        else (actualLoop L method T G r k).balance -
          principalOf L method T G r (k + 1) (actualLoop L method T G r k).balance := rfl

lemma totalInterest_succ (L : ℚ) (method : RepaymentMethod) (T G : ℕ) (r : ℚ) (k : ℕ) :
    (actualLoop L method T G r (k + 1)).totalInterest =
      (actualLoop L method T G r k).totalInterest +
        (actualLoop L method T G r k).balance * r := rfl

lemma payments_eq (L : ℚ) (method : RepaymentMethod) (T G : ℕ) (r : ℚ) : ∀ k,
    (actualLoop L method T G r k).payments =
      (List.range k).map (entryAt L method T G r)
  | 0 => rfl
  | k + 1 => by
    rw [actualLoop_succ, List.range_succ, List.map_append, List.map_singleton,
      payments_eq L method T G r k]

lemma payments_length (L : ℚ) (method : RepaymentMethod) (T G : ℕ) (r : ℚ) (k : ℕ) :
    (actualLoop L method T G r k).payments.length = k := by
  rw [payments_eq, List.length_map, List.length_range]

lemma payments_get (L : ℚ) (method : RepaymentMethod) (T G : ℕ) (r : ℚ) (k i : ℕ)
    (h : i < (actualLoop L method T G r k).payments.length) :
    (actualLoop L method T G r k).payments.get ⟨i, h⟩ = entryAt L method T G r i := by
  have hi : i < k := by rwa [payments_length] at h
  have h' := (actualLoop L method T G r k).payments.get?_eq_get h
  have h2 : (actualLoop L method T G r k).payments.get? i =
      some (entryAt L method T G r i) := by
    rw [payments_eq]
    simp [List.getElem?_map, List.getElem?_range, hi]
  rw [h2] at h'
  exact (Option.some.injEq _ _).mp h'.symm

lemma payments_getD (L : ℚ) (method : RepaymentMethod) (T G : ℕ) (r : ℚ) (k i : ℕ)
    (hi : i < k) (d : MonthlyPayment) :
    (actualLoop L method T G r k).payments.getD i d = entryAt L method T G r i := by
  rw [payments_eq]
  simp [List.getD, List.getElem?_map, List.getElem?_range, hi]

lemma mem_payments (L : ℚ) (method : RepaymentMethod) (T G : ℕ) (r : ℚ) (k : ℕ)
    (e : MonthlyPayment) (he : e ∈ (actualLoop L method T G r k).payments) :
    ∃ i, i < k ∧ e = entryAt L method T G r i := by
  rw [payments_eq] at he
  obtain ⟨i, hi, hei⟩ := List.mem_map.mp he
  exact ⟨i, List.mem_range.mp hi, hei.symm⟩

lemma sum_principal_succ (L : ℚ) (method : RepaymentMethod) (T G : ℕ) (r : ℚ) (k : ℕ) :
    ((actualLoop L method T G r (k + 1)).payments.map fun e => e.principal).sum =
      ((actualLoop L method T G r k).payments.map fun e => e.principal).sum +
        principalOf L method T G r (k + 1) (actualLoop L method T G r k).balance := by
  rw [actualLoop_succ]
  simp [entryAt]

lemma totalPayment_succ (L : ℚ) (method : RepaymentMethod) (T G : ℕ) (r : ℚ) (k : ℕ) :
    (actualLoop L method T G r (k + 1)).totalPayment =
      (actualLoop L method T G r k).totalPayment +
        paymentOf L method T G r (k + 1) (actualLoop L method T G r k).balance := rfl

/-- In every branch the total payment of a month is the principal portion
plus the interest portion. -/
lemma paymentOf_split (L : ℚ) (method : RepaymentMethod) (T G : ℕ) (r : ℚ)
    (m : ℕ) (b : ℚ) :
    paymentOf L method T G r m b = principalOf L method T G r m b + b * r := by
  unfold paymentOf principalOf
  by_cases h : m ≤ G
  · simp [h]
  · cases method <;> simp [h]

/-- `calculateDSR` exposes the actual loop's final state verbatim. -/
lemma calculateDSR_monthlyPayments (inp : LoanInputs) :
    (calculateDSR inp).monthlyPayments =
      (actualLoop inp.loanAmount inp.repaymentMethod (inp.loanTermYear * 12)
        (inp.gracePeriodYear * 12) (inp.interestRate / 100 / 12)
        (inp.loanTermYear * 12)).payments := rfl

/-! ### Balance invariants -/

/-- The zero floor keeps the running balance non-negative from the first
iteration on; non-negativity of the initial balance is the loan amount's. -/
lemma balance_nonneg (L : ℚ) (method : RepaymentMethod) (T G : ℕ) (r : ℚ)
    (hL : 0 ≤ L) : ∀ k, 0 ≤ (actualLoop L method T G r k).balance
  | 0 => hL
  | k + 1 => by
    rw [balance_succ]
    split
    · exact le_refl 0
    · next h => exact not_lt.mp h

/-- During the grace period the balance stays at the loan amount
(for a non-negative loan amount, so that the zero floor is inert). -/
lemma balance_grace (L : ℚ) (method : RepaymentMethod) (T G : ℕ) (r : ℚ)
    (hL : 0 ≤ L) : ∀ k, k ≤ G → (actualLoop L method T G r k).balance = L
  | 0, _ => rfl
  | k + 1, hk => by
    have hk' : k ≤ G := Nat.le_of_succ_le hk
    have hb := balance_grace L method T G r hL k hk'
    have hp : principalOf L method T G r (k + 1) L = 0 := by
      unfold principalOf
      rw [if_pos hk]
    rw [balance_succ, hb, hp]
    simp [not_lt.mpr hL]

/-- The principal portion is non-negative whenever the running balance sits
in `[0, loanAmount]` and the month is a real month of the schedule
(`m ≤ totalMonths`, so that the amortizing branch has at least one
effective month). -/
lemma principalOf_nonneg (L : ℚ) (method : RepaymentMethod) (T G : ℕ) (r : ℚ)
    (m : ℕ) (b : ℚ) (hL : 0 ≤ L) (hr : 0 ≤ r) (hb0 : 0 ≤ b) (hbL : b ≤ L)
    (hm : m ≤ T) : 0 ≤ principalOf L method T G r m b := by
  unfold principalOf
  by_cases hg : m ≤ G
  · simp [hg]
  · rw [if_neg hg]
    have hGT : G < T := lt_of_lt_of_le (not_le.mp hg) hm
    have hn : T - G ≠ 0 := Nat.sub_ne_zero_of_lt hGT
    cases method with
    | PrincipalEqual => exact div_nonneg hL (Nat.cast_nonneg _)
    | PrincipalInterestEqual =>
      rcases eq_or_lt_of_le hr with hr0 | hrpos
      · simp [annuityPmt, ← hr0]
      · have hu : 1 < (1 + r) ^ (T - G) := one_lt_pow₀ (by linarith) hn
        have hbr : b * r ≤ L * r := mul_le_mul_of_nonneg_right hbL hr
        have hLr : L * r ≤ annuityPmt L r (T - G) := by
          unfold annuityPmt
          rw [le_div_iff₀ (by linarith)]
          have h0 : 0 ≤ L * r := mul_nonneg hL hr
          nlinarith
        linarith

/-- Under non-negative loan amount and rate the running balance stays in
`[0, loanAmount]` throughout the schedule. -/
lemma balance_le_loan (L : ℚ) (method : RepaymentMethod) (T G : ℕ) (r : ℚ)
    (hL : 0 ≤ L) (hr : 0 ≤ r) : ∀ k, k ≤ T → (actualLoop L method T G r k).balance ≤ L
  | 0, _ => le_refl L
  | k + 1, hk => by
    have hk' : k ≤ T := Nat.le_of_succ_le hk
    have hb0 := balance_nonneg L method T G r hL k
    have hbL := balance_le_loan L method T G r hL hr k hk'
    have hp := principalOf_nonneg L method T G r (k + 1)
      (actualLoop L method T G r k).balance hL hr hb0 hbL hk
    rw [balance_succ]
    split
    · exact hL
    · linarith

/-- Month over month the balance never increases (within the schedule). -/
lemma balance_mono (L : ℚ) (method : RepaymentMethod) (T G : ℕ) (r : ℚ)
    (hL : 0 ≤ L) (hr : 0 ≤ r) (k : ℕ) (hk : k + 1 ≤ T) :
    (actualLoop L method T G r (k + 1)).balance ≤ (actualLoop L method T G r k).balance := by
  have hb0 := balance_nonneg L method T G r hL k
  have hbL := balance_le_loan L method T G r hL hr k (Nat.le_of_succ_le hk)
  have hp := principalOf_nonneg L method T G r (k + 1)
    (actualLoop L method T G r k).balance hL hr hb0 hbL hk
  rw [balance_succ]
  split
  · exact hb0
  · linarith

/-! ### The stress loop is the (balance, totalInterest) view of the loop -/

/-- The stress loop (source lines 124–143) tracks exactly the balance and
accumulated interest that the actual loop would track at the stress rate. -/
lemma stressLoop_eq (L : ℚ) (method : RepaymentMethod) (T G : ℕ) (sr : ℚ) : ∀ k,
    stressLoop L method T G sr k =
      ((actualLoop L method T G sr k).balance, (actualLoop L method T G sr k).totalInterest)
  | 0 => rfl
  | k + 1 => by
    show (let s := stressLoop L method T G sr k
      let m := k + 1
      let stressInt := s.1 * sr
      let stressPrincipal := principalOf L method T G sr m s.1
      let newBalance := s.1 - stressPrincipal
      (if newBalance < 0 then 0 else newBalance, s.2 + stressInt)) = _
    rw [stressLoop_eq L method T G sr k]
    rw [balance_succ, totalInterest_succ]

/-! ### Exact amortization: equal-principal sums -/

/-- No principal is recorded during the grace period (whatever the balance:
the grace branch ignores it). -/
lemma sum_principal_grace (L : ℚ) (method : RepaymentMethod) (T G : ℕ) (r : ℚ) :
    ∀ k, k ≤ G → ((actualLoop L method T G r k).payments.map fun e => e.principal).sum = 0
  | 0, _ => rfl
  | k + 1, hk => by
    have hp : principalOf L method T G r (k + 1) (actualLoop L method T G r k).balance = 0 := by
      unfold principalOf
      rw [if_pos hk]
    rw [sum_principal_succ, hp, sum_principal_grace L method T G r k (Nat.le_of_succ_le hk),
      add_zero]

/-- Equal-principal: each of the `j` months after the grace period records
principal `loanAmount / (totalMonths - graceMonths)`, independently of the
running balance. -/
lemma sum_principal_pe (L : ℚ) (T G : ℕ) (r : ℚ) : ∀ j,
    ((actualLoop L RepaymentMethod.PrincipalEqual T G r (G + j)).payments.map
      fun e => e.principal).sum = j * (L / ((T - G : ℕ) : ℚ))
  | 0 => by
    rw [Nat.add_zero, sum_principal_grace L RepaymentMethod.PrincipalEqual T G r G
      (le_refl G)]
    simp
  | j + 1 => by
    have hm : ¬ (G + j + 1 ≤ G) := by omega
    have hp : principalOf L RepaymentMethod.PrincipalEqual T G r (G + j + 1)
        (actualLoop L RepaymentMethod.PrincipalEqual T G r (G + j)).balance =
        L / ((T - G : ℕ) : ℚ) := by
      unfold principalOf
      rw [if_neg hm]
    rw [show G + (j + 1) = (G + j) + 1 by omega, sum_principal_succ, hp,
      sum_principal_pe L T G r j]
    push_cast
    ring

/-! ### Exact amortization: equal-installment closed form -/

/-- Closed form of the equal-installment balance after `j` amortizing
months: `L * ((1+r)^n - (1+r)^j) / ((1+r)^n - 1)`. -/
def piBal (L r : ℚ) (n j : ℕ) : ℚ :=
  L * ((1 + r) ^ n - (1 + r) ^ j) / ((1 + r) ^ n - 1)

lemma piBal_zero (L r : ℚ) (n : ℕ) (hu : (1 + r) ^ n - 1 ≠ 0) : piBal L r n 0 = L := by
  unfold piBal
  rw [pow_zero]
  field_simp

lemma piBal_last (L r : ℚ) (n : ℕ) : piBal L r n n = 0 := by
  unfold piBal
  rw [sub_self, mul_zero, zero_div]

/-- One amortizing step of the closed form: accrue interest, pay the
annuity. -/
lemma piBal_step (L r : ℚ) (n j : ℕ) (hu : (1 + r) ^ n - 1 ≠ 0) :
    piBal L r n j * (1 + r) - annuityPmt L r n = piBal L r n (j + 1) := by
  unfold piBal annuityPmt
  field_simp
  ring

lemma piBal_nonneg (L r : ℚ) (n j : ℕ) (hL : 0 ≤ L) (hr : 0 ≤ r)
    (hu : 1 < (1 + r) ^ n) (hj : j ≤ n) : 0 ≤ piBal L r n j := by
  unfold piBal
  apply div_nonneg (mul_nonneg hL _) (by linarith)
  exact sub_nonneg.mpr (pow_le_pow_right₀ (by linarith) hj)

/-- The equal-installment loop follows the closed form exactly: after the
grace period plus `j ≤ n` amortizing months the balance is `piBal j`, the
recorded principal sums to `L - piBal j`, and the accumulated interest is
the grace-period interest plus `j` annuity payments minus the principal
repaid so far.  In particular the zero floor never triggers. -/
lemma pi_closed (L : ℚ) (T G : ℕ) (r : ℚ) (hL : 0 ≤ L) (hr : 0 < r) (hG : G < T) :
    ∀ j, j ≤ T - G →
      (actualLoop L RepaymentMethod.PrincipalInterestEqual T G r (G + j)).balance =
          piBal L r (T - G) j ∧
      ((actualLoop L RepaymentMethod.PrincipalInterestEqual T G r (G + j)).payments.map
          fun e => e.principal).sum = L - piBal L r (T - G) j ∧
      (actualLoop L RepaymentMethod.PrincipalInterestEqual T G r (G + j)).totalInterest =
          (G : ℚ) * (L * r) +
            ((j : ℚ) * annuityPmt L r (T - G) - (L - piBal L r (T - G) j)) := by
  have hn : T - G ≠ 0 := Nat.sub_ne_zero_of_lt hG
  have hu1 : 1 < (1 + r) ^ (T - G) := one_lt_pow₀ (by linarith) hn
  have hu : (1 + r) ^ (T - G) - 1 ≠ 0 := by linarith
  have hTIgrace : ∀ k, k ≤ G →
      (actualLoop L RepaymentMethod.PrincipalInterestEqual T G r k).totalInterest =
        (k : ℚ) * (L * r) := by
    intro k
    induction k with
    | zero => intro _; simp [actualLoop_zero]
    | succ k ih =>
      intro hk
      have hk' : k ≤ G := Nat.le_of_succ_le hk
      rw [totalInterest_succ, ih hk',
        balance_grace L RepaymentMethod.PrincipalInterestEqual T G r hL k hk']
      push_cast
      ring
  intro j
  induction j with
  | zero =>
    intro _
    refine ⟨?_, ?_, ?_⟩
    · rw [Nat.add_zero, piBal_zero L r (T - G) hu,
        balance_grace L RepaymentMethod.PrincipalInterestEqual T G r hL G (le_refl G)]
    · rw [Nat.add_zero, piBal_zero L r (T - G) hu,
        sum_principal_grace L RepaymentMethod.PrincipalInterestEqual T G r G (le_refl G)]
      ring
    · rw [Nat.add_zero, piBal_zero L r (T - G) hu, hTIgrace G (le_refl G)]
      push_cast
      ring
  | succ j ih =>
    intro hj
    have hj' : j ≤ T - G := Nat.le_of_succ_le hj
    obtain ⟨hbal, hsum, hTI⟩ := ih hj'
    have hm : ¬ (G + j + 1 ≤ G) := by omega
    have hp : principalOf L RepaymentMethod.PrincipalInterestEqual T G r (G + j + 1)
        (actualLoop L RepaymentMethod.PrincipalInterestEqual T G r (G + j)).balance =
        annuityPmt L r (T - G) - piBal L r (T - G) j * r := by
      unfold principalOf
      rw [if_neg hm, hbal]
    have hstep := piBal_step L r (T - G) j hu
    have hnext : piBal L r (T - G) j -
        (annuityPmt L r (T - G) - piBal L r (T - G) j * r) = piBal L r (T - G) (j + 1) := by
      rw [← hstep]
      ring
    have hnn : 0 ≤ piBal L r (T - G) (j + 1) :=
      piBal_nonneg L r (T - G) (j + 1) hL hr.le hu1 hj
    have hGj : G + (j + 1) = (G + j) + 1 := by omega
    refine ⟨?_, ?_, ?_⟩
    · rw [hGj, balance_succ, hp, hbal, hnext, if_neg (not_lt.mpr hnn)]
    · rw [hGj, sum_principal_succ, hp, hsum, ← hnext]
      ring
    · rw [hGj, totalInterest_succ, hTI, hbal, ← hnext]
      push_cast
      ring

/-! ### Monotonicity of the annuity payment in the rate -/

/-- Sum of the first `n` monthly discount factors at rate `r`. -/
def discountSum (r : ℚ) (n : ℕ) : ℚ :=
  (Finset.range n).sum fun k => ((1 + r)⁻¹) ^ (k + 1)

lemma discountSum_eq (r : ℚ) (hr : 0 < r) : ∀ n,
    discountSum r n = ((1 + r) ^ n - 1) / (r * (1 + r) ^ n)
  | 0 => by simp [discountSum]
  | n + 1 => by
    have h1 : (1 + r) ≠ 0 := by linarith
    have h2 : r ≠ 0 := ne_of_gt hr
    have h3 : (1 + r) ^ n ≠ 0 := pow_ne_zero n h1
    rw [discountSum, Finset.sum_range_succ, ← discountSum, discountSum_eq r hr n,
      inv_pow]
    rw [pow_succ]
    field_simp
    ring

lemma discountSum_pos (r : ℚ) (n : ℕ) (hr : 0 < r) (hn : n ≠ 0) : 0 < discountSum r n := by
  unfold discountSum
  apply Finset.sum_pos
  · intro i _
    exact pow_pos (inv_pos.mpr (by linarith)) (i + 1)
  · exact Finset.nonempty_range_iff.mpr hn

lemma discountSum_lt (r₁ r₂ : ℚ) (n : ℕ) (h1 : 0 < r₁) (h12 : r₁ < r₂) (hn : n ≠ 0) :
    discountSum r₂ n < discountSum r₁ n := by
  unfold discountSum
  apply Finset.sum_lt_sum_of_nonempty (Finset.nonempty_range_iff.mpr hn)
  intro i _
  have hinv : (1 + r₂)⁻¹ < (1 + r₁)⁻¹ := by
    apply inv_lt_inv_of_lt (by linarith) (by linarith)
  exact pow_lt_pow_left₀ hinv (inv_nonneg.mpr (by linarith)) (Nat.succ_ne_zero i)

/-- The annuity payment is the loan amount divided by the discount-factor
sum. -/
lemma annuityPmt_eq_div (L r : ℚ) (n : ℕ) (hr : 0 < r) (hn : n ≠ 0) :
    annuityPmt L r n = L / discountSum r n := by
  have h1 : (1 + r) ≠ 0 := by linarith
  have h3 : (1 + r) ^ n ≠ 0 := pow_ne_zero n h1
  have hu1 : 1 < (1 + r) ^ n := one_lt_pow₀ (by linarith) hn
  have hu : (1 + r) ^ n - 1 ≠ 0 := by linarith
  rw [discountSum_eq r hr n]
  unfold annuityPmt
  rw [div_div_eq_mul_div]
  field_simp
  ring

/-- The annuity payment strictly increases with the rate. -/
lemma annuityPmt_lt (L r₁ r₂ : ℚ) (n : ℕ) (hL : 0 < L) (h1 : 0 < r₁) (h12 : r₁ < r₂)
    (hn : n ≠ 0) : annuityPmt L r₁ n < annuityPmt L r₂ n := by
  rw [annuityPmt_eq_div L r₁ n h1 hn, annuityPmt_eq_div L r₂ n (by linarith) hn]
  exact div_lt_div_of_pos_left hL (discountSum_pos r₂ n (by linarith) hn)
    (discountSum_lt r₁ r₂ n h1 h12 hn)

/-! ### Aggregation helpers -/

lemma annualPrincipalBurden_nonneg (inp : LoanInputs) (hL : 0 ≤ inp.loanAmount) :
    0 ≤ annualPrincipalBurden inp := by
  unfold annualPrincipalBurden
  cases inp.collateralType with
  | Housing =>
    dsimp only
    split
    · next h => exact div_nonneg hL (le_of_lt (by exact_mod_cast Int.cast_pos.mpr h))
    · exact hL
  | Other => exact div_nonneg hL (Nat.cast_nonneg _)

lemma totalInterest_nonneg (L : ℚ) (method : RepaymentMethod) (T G : ℕ) (r : ℚ)
    (hL : 0 ≤ L) (hr : 0 ≤ r) : ∀ k, 0 ≤ (actualLoop L method T G r k).totalInterest
  | 0 => le_refl 0
  | k + 1 => by
    rw [totalInterest_succ]
    have h1 := totalInterest_nonneg L method T G r hL hr k
    have h2 := balance_nonneg L method T G r hL k
    have := mul_nonneg h2 hr
    linarith

lemma totalStressInterest_nonneg (inp : LoanInputs) (hL : 0 ≤ inp.loanAmount)
    (hr : 0 ≤ inp.interestRate) : 0 ≤ totalStressInterest inp := by
  unfold totalStressInterest
  rw [stressLoop_eq]
  have hsr : 0 ≤ (inp.interestRate + stressDsrAddOn inp.applyStressDsr) / 100 / 12 := by
    have : 0 ≤ stressDsrAddOn inp.applyStressDsr := by
      unfold stressDsrAddOn
      split <;> norm_num
    positivity
  exact totalInterest_nonneg _ _ _ _ _ hL hsr _

/-! ### Equal-principal balance closed form (no grace period) -/

/-- With no grace period the equal-principal balance after `k ≤ T` months is
`L - k * (L / T)`; the zero floor never fires for a non-negative loan. -/
lemma pe_balance (L : ℚ) (T : ℕ) (r : ℚ) (hL : 0 ≤ L) :
    ∀ k, k ≤ T → (actualLoop L RepaymentMethod.PrincipalEqual T 0 r k).balance =
      L - (k : ℚ) * (L / (T : ℚ))
  | 0, _ => by simp [actualLoop_zero]
  | k + 1, hk => by
    have hk' : k ≤ T := Nat.le_of_succ_le hk
    have hb := pe_balance L T r hL k hk'
    have hp : principalOf L RepaymentMethod.PrincipalEqual T 0 r (k + 1)
        (actualLoop L RepaymentMethod.PrincipalEqual T 0 r k).balance = L / (T : ℚ) := by
      unfold principalOf
      rw [if_neg (by omega)]
      rfl
    have hT0 : (0 : ℚ) < (T : ℚ) := by
      have : 0 < T := by omega
      exact_mod_cast this
    have hcast : ((k : ℚ) + 1) ≤ (T : ℚ) := by exact_mod_cast hk
    have hnn : 0 ≤ L - ((k : ℚ) + 1) * (L / (T : ℚ)) := by
      have h1 : ((k : ℚ) + 1) * (L / (T : ℚ)) ≤ (T : ℚ) * (L / (T : ℚ)) :=
        mul_le_mul_of_nonneg_right hcast (div_nonneg hL hT0.le)
      have h2 : (T : ℚ) * (L / (T : ℚ)) = L := by
        field_simp
      linarith
    rw [balance_succ, hp, hb, if_neg (by push_cast; linarith)]
    push_cast
    ring

/-! ### Zero-rate degeneration of the equal-installment schedule -/

lemma annuityPmt_zero_rate (L : ℚ) (n : ℕ) : annuityPmt L 0 n = 0 := by
  unfold annuityPmt
  simp

lemma paymentOf_zero_rate (L : ℚ) (T G : ℕ) (m : ℕ) (b : ℚ) :
    paymentOf L RepaymentMethod.PrincipalInterestEqual T G 0 m b = 0 := by
  unfold paymentOf
  split
  · exact mul_zero b
  · exact annuityPmt_zero_rate L (T - G)

lemma principalOf_zero_rate (L : ℚ) (T G : ℕ) (m : ℕ) (b : ℚ) :
    principalOf L RepaymentMethod.PrincipalInterestEqual T G 0 m b = 0 := by
  unfold principalOf
  split
  · rfl
  · rw [annuityPmt_zero_rate, mul_zero, sub_zero]

lemma totalInterest_zero_rate (L : ℚ) (method : RepaymentMethod) (T G : ℕ) :
    ∀ k, (actualLoop L method T G 0 k).totalInterest = 0
  | 0 => rfl
  | k + 1 => by
    rw [totalInterest_succ, mul_zero, totalInterest_zero_rate L method T G k, add_zero]

lemma totalPayment_zero_rate (L : ℚ) (T G : ℕ) :
    ∀ k, (actualLoop L RepaymentMethod.PrincipalInterestEqual T G 0 k).totalPayment = 0
  | 0 => rfl
  | k + 1 => by
    rw [totalPayment_succ, paymentOf_zero_rate, totalPayment_zero_rate L T G k, add_zero]

lemma sum_principal_zero_rate (L : ℚ) (T G : ℕ) : ∀ k,
    ((actualLoop L RepaymentMethod.PrincipalInterestEqual T G 0 k).payments.map
      fun e => e.principal).sum = 0
  | 0 => rfl
  | k + 1 => by
    rw [sum_principal_succ, principalOf_zero_rate, sum_principal_zero_rate L T G k,
      add_zero]

/-! ### Total stress interest in the no-grace equal-installment case -/

/-- With no grace period, a positive stress rate and a non-negative loan,
the stress pass accumulates exactly `T * annuityPmt - L` of interest. -/
lemma tsi_no_grace (L : ℚ) (T : ℕ) (sr : ℚ) (hL : 0 ≤ L) (hsr : 0 < sr) (hT : 0 < T) :
    (stressLoop L RepaymentMethod.PrincipalInterestEqual T 0 sr T).2 =
      (T : ℚ) * annuityPmt L sr T - L := by
  rw [stressLoop_eq]
  obtain ⟨_, _, hTI⟩ := pi_closed L T 0 sr hL hsr hT (T - 0) (le_refl _)
  simp only [Nat.zero_add, Nat.sub_zero] at hTI
  dsimp only
  rw [hTI, piBal_last]
  push_cast
  ring

/-! ### Concrete inputs used in witnesses and counterexamples -/

def exC1 : LoanInputs :=
  ⟨1000, 1200, 12, 1, 0, RepaymentMethod.PrincipalEqual, CollateralType.Housing, false⟩

def exC2 : LoanInputs :=
  ⟨0, 2400, 12, 2, 1, RepaymentMethod.PrincipalEqual, CollateralType.Housing, false⟩

def exC4 : LoanInputs :=
  ⟨0, 1200, 12, 1, 0, RepaymentMethod.PrincipalEqual, CollateralType.Housing, false⟩

def exC5 : LoanInputs :=
  ⟨0, 1200, 12, 1, 0, RepaymentMethod.PrincipalInterestEqual, CollateralType.Other, false⟩

def exC6 : LoanInputs :=
  ⟨0, 1200, 12, 1, 0, RepaymentMethod.PrincipalEqual, CollateralType.Housing, false⟩

def c7cex : LoanInputs :=
  ⟨0, -100, 0, 1, 1, RepaymentMethod.PrincipalEqual, CollateralType.Housing, false⟩

def exC7 : LoanInputs :=
  ⟨0, 100, 12, 1, 1, RepaymentMethod.PrincipalEqual, CollateralType.Housing, false⟩

def sA : LoanInputs :=
  ⟨50000000, 300000000, 4.5, 30, 0, RepaymentMethod.PrincipalInterestEqual,
    CollateralType.Housing, false⟩

def sD : LoanInputs := { sA with applyStressDsr := true }

def c9cex : LoanInputs :=
  ⟨0, 1200, 0, 1, 0, RepaymentMethod.PrincipalEqual, CollateralType.Housing, false⟩

def exC9 : LoanInputs :=
  ⟨0, 1200, 12, 1, 0, RepaymentMethod.PrincipalEqual, CollateralType.Housing, false⟩

def exC10 : LoanInputs :=
  ⟨0, 1200, 0, 1, 0, RepaymentMethod.PrincipalInterestEqual, CollateralType.Housing, false⟩

/-! ### Claim theorems -/

/-- C1: the DSR aggregation computes the annual principal burden by
collateral type (housing: loan amount over `loanTermYear - gracePeriodYear`
when positive, else loan amount; other: loan amount over the full term),
the annual interest burden as the stress-pass total interest over the full
term, and the ratio as `(principal + interest burden) / annualIncome * 100`
whenever the income is positive. -/
theorem C1_dsr_aggregation (inp : LoanInputs) :
    (inp.collateralType = CollateralType.Housing →
      ((0 < (inp.loanTermYear : ℤ) - (inp.gracePeriodYear : ℤ) →
        annualPrincipalBurden inp =
          inp.loanAmount / (((inp.loanTermYear : ℤ) - (inp.gracePeriodYear : ℤ) : ℤ) : ℚ)) ∧
       ((inp.loanTermYear : ℤ) - (inp.gracePeriodYear : ℤ) ≤ 0 →
        annualPrincipalBurden inp = inp.loanAmount))) ∧
    (inp.collateralType = CollateralType.Other →
      annualPrincipalBurden inp = inp.loanAmount / (inp.loanTermYear : ℚ)) ∧
    (annualInterestBurden inp = totalStressInterest inp / (inp.loanTermYear : ℚ)) ∧
    (0 < inp.annualIncome →
      (calculateDSR inp).dsrRatio =
        (annualPrincipalBurden inp + annualInterestBurden inp) / inp.annualIncome * 100) := by
  refine ⟨fun hH => ⟨fun h => ?_, fun h => ?_⟩, fun hO => ?_, rfl, fun hI => ?_⟩
  · simp only [annualPrincipalBurden, hH]
    rw [if_pos h]
  · simp only [annualPrincipalBurden, hH]
    rw [if_neg (not_lt.mpr h)]
  · simp only [annualPrincipalBurden, hO]
  · rw [show (calculateDSR inp).dsrRatio =
      (if 0 < inp.annualIncome then
        (annualPrincipalBurden inp + annualInterestBurden inp) / inp.annualIncome * 100
      else 0) from rfl, if_pos hI]

/-- Witness for C1 at a concrete housing-collateral input with positive
income and positive effective term. -/
theorem C1_dsr_aggregation_witness :
    (0 : ℚ) < exC1.annualIncome ∧
    0 < (exC1.loanTermYear : ℤ) - (exC1.gracePeriodYear : ℤ) ∧
    annualPrincipalBurden exC1 =
      exC1.loanAmount / (((exC1.loanTermYear : ℤ) - (exC1.gracePeriodYear : ℤ) : ℤ) : ℚ) ∧
    (calculateDSR exC1).dsrRatio =
      (annualPrincipalBurden exC1 + annualInterestBurden exC1) / exC1.annualIncome * 100 :=
  ⟨by decide, by decide,
   ((C1_dsr_aggregation exC1).1 rfl).1 (by decide),
   (C1_dsr_aggregation exC1).2.2.2 (by decide)⟩

/-- C2: for non-negative loan amount and rate, grace period shorter than
the term, and a positive rate in the equal-installment case, the principal
portions recorded over the full actual schedule sum to exactly the loan
amount. -/
theorem C2_principal_sum (inp : LoanInputs) (hL : 0 ≤ inp.loanAmount)
    (hr : 0 ≤ inp.interestRate) (hg : inp.gracePeriodYear < inp.loanTermYear)
    (hEI : inp.repaymentMethod = RepaymentMethod.PrincipalInterestEqual →
      0 < inp.interestRate) :
    ((calculateDSR inp).monthlyPayments.map fun e => e.principal).sum = inp.loanAmount := by
  rw [calculateDSR_monthlyPayments]
  have hGT : inp.gracePeriodYear * 12 < inp.loanTermYear * 12 := by omega
  have hn0 : inp.loanTermYear * 12 - inp.gracePeriodYear * 12 ≠ 0 :=
    Nat.sub_ne_zero_of_lt hGT
  have hnq : ((inp.loanTermYear * 12 - inp.gracePeriodYear * 12 : ℕ) : ℚ) ≠ 0 :=
    Nat.cast_ne_zero.mpr hn0
  cases hmeth : inp.repaymentMethod with
  | PrincipalEqual =>
    have hpe := sum_principal_pe inp.loanAmount (inp.loanTermYear * 12)
      (inp.gracePeriodYear * 12) (inp.interestRate / 100 / 12)
      (inp.loanTermYear * 12 - inp.gracePeriodYear * 12)
    rw [Nat.add_sub_cancel' (le_of_lt hGT)] at hpe
    rw [hpe, mul_comm, div_mul_cancel₀ _ hnq]
  | PrincipalInterestEqual =>
    have hrq : 0 < inp.interestRate / 100 / 12 := by
      have := hEI hmeth
      positivity
    obtain ⟨_, hsum, _⟩ := pi_closed inp.loanAmount (inp.loanTermYear * 12)
      (inp.gracePeriodYear * 12) (inp.interestRate / 100 / 12) hL hrq hGT
      (inp.loanTermYear * 12 - inp.gracePeriodYear * 12) (le_refl _)
    rw [Nat.add_sub_cancel' (le_of_lt hGT)] at hsum
    rw [hsum, piBal_last, sub_zero]

/-- Witness for C2 at a concrete equal-principal input with a one-year
grace period inside a two-year term. -/
theorem C2_principal_sum_witness :
    ((calculateDSR exC2).monthlyPayments.map fun e => e.principal).sum = exC2.loanAmount :=
  C2_principal_sum exC2 (by decide) (by decide) (by decide) (by decide)

/-- C3: the `applyStressDsr` flag changes none of the displayed outputs:
the schedule, the total interest, the total payment and the average monthly
payment agree between the stressed and unstressed runs. -/
theorem C3_stress_flag_display_invariant (inp : LoanInputs) :
    (calculateDSR { inp with applyStressDsr := true }).monthlyPayments =
      (calculateDSR { inp with applyStressDsr := false }).monthlyPayments ∧
    (calculateDSR { inp with applyStressDsr := true }).totalInterest =
      (calculateDSR { inp with applyStressDsr := false }).totalInterest ∧
    (calculateDSR { inp with applyStressDsr := true }).totalPayment =
      (calculateDSR { inp with applyStressDsr := false }).totalPayment ∧
    (calculateDSR { inp with applyStressDsr := true }).avgMonthlyPayment =
      (calculateDSR { inp with applyStressDsr := false }).avgMonthlyPayment :=
  ⟨rfl, rfl, rfl, rfl⟩

/-- C4: with non-negative loan amount and rate the balances of the actual
schedule are non-negative and non-increasing from one entry to the next. -/
theorem C4_balance_monotone (inp : LoanInputs) (hL : 0 ≤ inp.loanAmount)
    (hr : 0 ≤ inp.interestRate) (ht : 1 ≤ inp.loanTermYear) :
    (∀ e ∈ (calculateDSR inp).monthlyPayments, 0 ≤ e.balance) ∧
    ∀ i, ∀ h : i + 1 < (calculateDSR inp).monthlyPayments.length,
      ((calculateDSR inp).monthlyPayments.get ⟨i + 1, h⟩).balance ≤
        ((calculateDSR inp).monthlyPayments.get ⟨i, Nat.lt_of_succ_lt h⟩).balance := by
  have hr12 : 0 ≤ inp.interestRate / 100 / 12 := by positivity
  constructor
  · intro e he
    rw [calculateDSR_monthlyPayments] at he
    obtain ⟨i, _, rfl⟩ := mem_payments _ _ _ _ _ _ e he
    exact balance_nonneg inp.loanAmount inp.repaymentMethod (inp.loanTermYear * 12)
      (inp.gracePeriodYear * 12) (inp.interestRate / 100 / 12) hL (i + 1)
  · intro i h
    have hlen : (calculateDSR inp).monthlyPayments.length = inp.loanTermYear * 12 :=
      payments_length _ _ _ _ _ _
    have e1 : ((calculateDSR inp).monthlyPayments).get ⟨i + 1, h⟩ =
        entryAt inp.loanAmount inp.repaymentMethod (inp.loanTermYear * 12)
          (inp.gracePeriodYear * 12) (inp.interestRate / 100 / 12) (i + 1) :=
      payments_get _ _ _ _ _ _ _ h
    have e0 : ((calculateDSR inp).monthlyPayments).get ⟨i, Nat.lt_of_succ_lt h⟩ =
        entryAt inp.loanAmount inp.repaymentMethod (inp.loanTermYear * 12)
          (inp.gracePeriodYear * 12) (inp.interestRate / 100 / 12) i :=
      payments_get _ _ _ _ _ _ _ (Nat.lt_of_succ_lt h)
    rw [e1, e0]
    exact balance_mono inp.loanAmount inp.repaymentMethod (inp.loanTermYear * 12)
      (inp.gracePeriodYear * 12) (inp.interestRate / 100 / 12) hL hr12 (i + 1)
      (by omega)

/-- Witness for C4 at a concrete equal-principal input. -/
theorem C4_balance_monotone_witness :
    0 ≤ ((calculateDSR exC4).monthlyPayments.get ⟨0, by decide⟩).balance ∧
    ((calculateDSR exC4).monthlyPayments.get ⟨1, by decide⟩).balance ≤
      ((calculateDSR exC4).monthlyPayments.get ⟨0, by decide⟩).balance :=
  ⟨(C4_balance_monotone exC4 (by decide) (by decide) (by decide)).1 _
      (List.get_mem _ _ _),
   (C4_balance_monotone exC4 (by decide) (by decide) (by decide)).2 0 (by decide)⟩

/-- C5: every entry of the actual schedule satisfies
`principal + interest = payment`, exactly, in every branch. -/
theorem C5_entry_payment_split (inp : LoanInputs) :
    ∀ e ∈ (calculateDSR inp).monthlyPayments, e.principal + e.interest = e.payment := by
  intro e he
  rw [calculateDSR_monthlyPayments] at he
  obtain ⟨i, _, rfl⟩ := mem_payments _ _ _ _ _ _ e he
  exact (paymentOf_split inp.loanAmount inp.repaymentMethod (inp.loanTermYear * 12)
    (inp.gracePeriodYear * 12) (inp.interestRate / 100 / 12) (i + 1)
    (actualLoop inp.loanAmount inp.repaymentMethod (inp.loanTermYear * 12)
      (inp.gracePeriodYear * 12) (inp.interestRate / 100 / 12) i).balance).symm

/-- Witness for C5 at a concrete equal-installment entry. -/
theorem C5_entry_payment_split_witness :
    ((calculateDSR exC5).monthlyPayments.get ⟨0, by decide⟩).principal +
        ((calculateDSR exC5).monthlyPayments.get ⟨0, by decide⟩).interest =
      ((calculateDSR exC5).monthlyPayments.get ⟨0, by decide⟩).payment :=
  C5_entry_payment_split exC5 _ (List.get_mem _ _ _)

/-- C6: a non-positive annual income yields a DSR ratio of exactly 0 rather
than an error, and with non-negative income, loan amount and rate the ratio
is never negative. -/
theorem C6_income_guard (inp : LoanInputs) :
    (inp.annualIncome ≤ 0 → (calculateDSR inp).dsrRatio = 0) ∧
    (0 ≤ inp.annualIncome → 0 ≤ inp.loanAmount → 0 ≤ inp.interestRate →
      0 ≤ (calculateDSR inp).dsrRatio) := by
  have hd : (calculateDSR inp).dsrRatio =
      (if 0 < inp.annualIncome then
        (annualPrincipalBurden inp + annualInterestBurden inp) / inp.annualIncome * 100
      else 0) := rfl
  constructor
  · intro h
    rw [hd, if_neg (not_lt.mpr h)]
  · intro _ hL hr
    rw [hd]
    split
    · next hpos =>
      have h1 := annualPrincipalBurden_nonneg inp hL
      have h2 : 0 ≤ annualInterestBurden inp :=
        div_nonneg (totalStressInterest_nonneg inp hL hr) (Nat.cast_nonneg _)
      have h3 := div_nonneg (add_nonneg h1 h2) (le_of_lt hpos)
      exact mul_nonneg h3 (by norm_num)
    · exact le_refl 0

/-- Witness for C6 at a concrete input with zero income. -/
theorem C6_income_guard_witness :
    (calculateDSR exC6).dsrRatio = 0 ∧ 0 ≤ (calculateDSR exC6).dsrRatio :=
  ⟨(C6_income_guard exC6).1 (by decide),
   (C6_income_guard exC6).2 (by decide) (by decide) (by decide)⟩

/-- C7 counterexample: with a negative loan amount the zero floor fires in
the very first grace month, so the balance does not stay equal to the loan
amount during the grace period, refuting the claim over all inputs. -/
theorem C7_counterexample :
    1 ≤ c7cex.gracePeriodYear * 12 ∧
    1 ≤ (calculateDSR c7cex).monthlyPayments.length ∧
    ((calculateDSR c7cex).monthlyPayments.getD 0 dfltEntry).balance ≠ c7cex.loanAmount := by
  refine ⟨by decide, by decide, ?_⟩
  rw [calculateDSR_monthlyPayments,
    payments_getD c7cex.loanAmount c7cex.repaymentMethod (c7cex.loanTermYear * 12)
      (c7cex.gracePeriodYear * 12) (c7cex.interestRate / 100 / 12)
      (c7cex.loanTermYear * 12) 0 (by decide) dfltEntry]
  unfold entryAt
  dsimp only
  rw [balance_succ, actualLoop_zero]
  dsimp only
  unfold principalOf
  rw [if_pos (by decide : 0 + 1 ≤ c7cex.gracePeriodYear * 12)]
  norm_num [c7cex]

/-- C7 (amended with non-negative loan amount): every schedule entry inside
the grace period is interest-only at balance `loanAmount`: principal 0,
interest and payment `loanAmount * monthlyRate`, balance still
`loanAmount`. -/
theorem C7_grace_interest_only (inp : LoanInputs) (hL : 0 ≤ inp.loanAmount) (i : ℕ)
    (hg : i + 1 ≤ inp.gracePeriodYear * 12)
    (hT : i < (calculateDSR inp).monthlyPayments.length) :
    (calculateDSR inp).monthlyPayments.get ⟨i, hT⟩ =
      ⟨i + 1, inp.loanAmount * (inp.interestRate / 100 / 12), 0,
        inp.loanAmount * (inp.interestRate / 100 / 12), inp.loanAmount⟩ := by
  have e1 : ((calculateDSR inp).monthlyPayments).get ⟨i, hT⟩ =
      entryAt inp.loanAmount inp.repaymentMethod (inp.loanTermYear * 12)
        (inp.gracePeriodYear * 12) (inp.interestRate / 100 / 12) i :=
    payments_get _ _ _ _ _ _ _ hT
  have hbi : (actualLoop inp.loanAmount inp.repaymentMethod (inp.loanTermYear * 12)
      (inp.gracePeriodYear * 12) (inp.interestRate / 100 / 12) i).balance =
      inp.loanAmount :=
    balance_grace _ _ _ _ _ hL i (by omega)
  have hbi1 : (actualLoop inp.loanAmount inp.repaymentMethod (inp.loanTermYear * 12)
      (inp.gracePeriodYear * 12) (inp.interestRate / 100 / 12) (i + 1)).balance =
      inp.loanAmount :=
    balance_grace _ _ _ _ _ hL (i + 1) hg
  rw [e1]
  unfold entryAt
  rw [hbi, hbi1]
  unfold paymentOf principalOf
  rw [if_pos hg, if_pos hg]

/-- Witness for C7 at a concrete all-grace input. -/
theorem C7_grace_interest_only_witness :
    (calculateDSR exC7).monthlyPayments.get ⟨0, by decide⟩ = ⟨1, 1, 0, 1, 100⟩ :=
  (C7_grace_interest_only exC7 (by decide) 0 (by decide) (by decide)).trans
    (by norm_num [exC7])

/-- C8: on the concrete scenario (income 50,000,000; loan 300,000,000; rate
4.5; 30 years; no grace; equal-installment; housing) the stressed run
reports `stressDsrRateUsed = 7.5` and a strictly larger DSR ratio than the
unstressed run. -/
theorem C8_stress_scenario :
    (calculateDSR sD).stressDsrRateUsed = 7.5 ∧
    (calculateDSR sA).dsrRatio < (calculateDSR sD).dsrRatio := by
  constructor
  · show sA.interestRate + stressDsrAddOn true = 7.5
    norm_num [sA, stressDsrAddOn]
  · have hTSIA : totalStressInterest sA =
        360 * annuityPmt 300000000 ((4.5 + stressDsrAddOn false) / 100 / 12) 360 -
          300000000 := by
      show (stressLoop (300000000 : ℚ) RepaymentMethod.PrincipalInterestEqual 360 0
        ((4.5 + stressDsrAddOn false) / 100 / 12) 360).2 = _
      rw [tsi_no_grace 300000000 360 ((4.5 + stressDsrAddOn false) / 100 / 12)
        (by norm_num) (by norm_num [stressDsrAddOn]) (by norm_num)]
      norm_num
    have hTSID : totalStressInterest sD =
        360 * annuityPmt 300000000 ((4.5 + stressDsrAddOn true) / 100 / 12) 360 -
          300000000 := by
      show (stressLoop (300000000 : ℚ) RepaymentMethod.PrincipalInterestEqual 360 0
        ((4.5 + stressDsrAddOn true) / 100 / 12) 360).2 = _
      rw [tsi_no_grace 300000000 360 ((4.5 + stressDsrAddOn true) / 100 / 12)
        (by norm_num) (by norm_num [stressDsrAddOn]) (by norm_num)]
      norm_num
    have hpmt : annuityPmt 300000000 ((4.5 + stressDsrAddOn false) / 100 / 12) 360 <
        annuityPmt 300000000 ((4.5 + stressDsrAddOn true) / 100 / 12) 360 := by
      apply annuityPmt_lt <;> norm_num [stressDsrAddOn]
    have hdsrA : (calculateDSR sA).dsrRatio =
        (annualPrincipalBurden sA + totalStressInterest sA / 30) / 50000000 * 100 := by
      show (if (0 : ℚ) < 50000000 then
          (annualPrincipalBurden sA + annualInterestBurden sA) / 50000000 * 100
        else 0) = _
      rw [if_pos (by norm_num)]
      unfold annualInterestBurden
      rw [show ((sA.loanTermYear : ℕ) : ℚ) = 30 from by
        norm_num [show sA.loanTermYear = 30 from rfl]]
    have hdsrD : (calculateDSR sD).dsrRatio =
        (annualPrincipalBurden sA + totalStressInterest sD / 30) / 50000000 * 100 := by
      show (if (0 : ℚ) < 50000000 then
          (annualPrincipalBurden sD + annualInterestBurden sD) / 50000000 * 100
        else 0) = _
      rw [if_pos (by norm_num)]
      unfold annualInterestBurden
      rw [show annualPrincipalBurden sD = annualPrincipalBurden sA from rfl]
      rw [show ((sD.loanTermYear : ℕ) : ℚ) = 30 from by
        norm_num [show sD.loanTermYear = 30 from rfl]]
    rw [hdsrA, hdsrD, hTSIA, hTSID]
    linarith

/-- C9 counterexample: with a zero interest rate (equal-principal, no
grace, positive loan, one-year term) consecutive interest portions are both
zero, so the interest portion does not strictly decrease; the claim needs a
positive rate. -/
theorem C9_counterexample :
    c9cex.repaymentMethod = RepaymentMethod.PrincipalEqual ∧
    c9cex.gracePeriodYear = 0 ∧ 0 < c9cex.loanAmount ∧ 1 ≤ c9cex.loanTermYear ∧
    2 ≤ (calculateDSR c9cex).monthlyPayments.length ∧
    ¬ (((calculateDSR c9cex).monthlyPayments.getD 1 dfltEntry).interest <
        ((calculateDSR c9cex).monthlyPayments.getD 0 dfltEntry).interest) := by
  refine ⟨rfl, rfl, by decide, by decide, by decide, ?_⟩
  rw [calculateDSR_monthlyPayments,
    payments_getD c9cex.loanAmount c9cex.repaymentMethod (c9cex.loanTermYear * 12)
      (c9cex.gracePeriodYear * 12) (c9cex.interestRate / 100 / 12)
      (c9cex.loanTermYear * 12) 1 (by decide) dfltEntry,
    payments_getD c9cex.loanAmount c9cex.repaymentMethod (c9cex.loanTermYear * 12)
      (c9cex.gracePeriodYear * 12) (c9cex.interestRate / 100 / 12)
      (c9cex.loanTermYear * 12) 0 (by decide) dfltEntry]
  unfold entryAt
  dsimp only
  norm_num [c9cex]

/-- C9 (amended with a positive interest rate): for equal-principal
repayment with no grace period, positive loan amount and positive rate,
every entry's principal portion is exactly `loanAmount / totalMonths` and
the interest portion strictly decreases month over month. -/
theorem C9_equal_principal (inp : LoanInputs)
    (hm : inp.repaymentMethod = RepaymentMethod.PrincipalEqual)
    (hg : inp.gracePeriodYear = 0) (hL : 0 < inp.loanAmount)
    (ht : 1 ≤ inp.loanTermYear) (hr : 0 < inp.interestRate) :
    (∀ e ∈ (calculateDSR inp).monthlyPayments,
      e.principal = inp.loanAmount / ((inp.loanTermYear * 12 : ℕ) : ℚ)) ∧
    ∀ i, ∀ h : i + 1 < (calculateDSR inp).monthlyPayments.length,
      ((calculateDSR inp).monthlyPayments.get ⟨i + 1, h⟩).interest <
        ((calculateDSR inp).monthlyPayments.get ⟨i, Nat.lt_of_succ_lt h⟩).interest := by
  have hr12 : 0 < inp.interestRate / 100 / 12 := by positivity
  have hLT : 0 < inp.loanTermYear * 12 := by omega
  have hdiv : 0 < inp.loanAmount / ((inp.loanTermYear * 12 : ℕ) : ℚ) := by
    apply div_pos hL
    exact_mod_cast hLT
  constructor
  · intro e he
    rw [calculateDSR_monthlyPayments, hm, hg] at he
    obtain ⟨i, hik, rfl⟩ := mem_payments _ _ _ _ _ _ e he
    simp only [entryAt]
    unfold principalOf
    rw [if_neg (by omega : ¬ (i + 1 ≤ 0 * 12))]
    dsimp only
    norm_num
  · intro i h
    have hlen : (calculateDSR inp).monthlyPayments.length = inp.loanTermYear * 12 :=
      payments_length _ _ _ _ _ _
    have hi1 : i + 1 < inp.loanTermYear * 12 := by omega
    have e1 : ((calculateDSR inp).monthlyPayments).get ⟨i + 1, h⟩ =
        entryAt inp.loanAmount inp.repaymentMethod (inp.loanTermYear * 12)
          (inp.gracePeriodYear * 12) (inp.interestRate / 100 / 12) (i + 1) :=
      payments_get _ _ _ _ _ _ _ h
    have e0 : ((calculateDSR inp).monthlyPayments).get ⟨i, Nat.lt_of_succ_lt h⟩ =
        entryAt inp.loanAmount inp.repaymentMethod (inp.loanTermYear * 12)
          (inp.gracePeriodYear * 12) (inp.interestRate / 100 / 12) i :=
      payments_get _ _ _ _ _ _ _ (Nat.lt_of_succ_lt h)
    rw [e1, e0]
    show (actualLoop inp.loanAmount inp.repaymentMethod (inp.loanTermYear * 12)
        (inp.gracePeriodYear * 12) (inp.interestRate / 100 / 12) (i + 1)).balance *
        (inp.interestRate / 100 / 12) <
      (actualLoop inp.loanAmount inp.repaymentMethod (inp.loanTermYear * 12)
        (inp.gracePeriodYear * 12) (inp.interestRate / 100 / 12) i).balance *
        (inp.interestRate / 100 / 12)
    rw [hm, hg]
    have hb1 := pe_balance inp.loanAmount (inp.loanTermYear * 12)
      (inp.interestRate / 100 / 12) hL.le (i + 1) (by omega)
    have hb0 := pe_balance inp.loanAmount (inp.loanTermYear * 12)
      (inp.interestRate / 100 / 12) hL.le i (by omega)
    have hZ : (0 : ℕ) * 12 = 0 := by norm_num
    rw [hZ, hb1, hb0]
    apply mul_lt_mul_of_pos_right _ hr12
    have := hdiv
    push_cast
    push_cast at this
    nlinarith

/-- Witness for the amended C9 at a concrete equal-principal input with a
positive rate. -/
theorem C9_equal_principal_witness :
    ((calculateDSR exC9).monthlyPayments.get ⟨0, by decide⟩).principal =
      exC9.loanAmount / ((exC9.loanTermYear * 12 : ℕ) : ℚ) ∧
    ((calculateDSR exC9).monthlyPayments.get ⟨1, by decide⟩).interest <
      ((calculateDSR exC9).monthlyPayments.get ⟨0, by decide⟩).interest :=
  ⟨(C9_equal_principal exC9 rfl rfl (by decide) (by decide) (by decide)).1 _
      (List.get_mem _ _ _),
   (C9_equal_principal exC9 rfl rfl (by decide) (by decide) (by decide)).2 0 (by decide)⟩

/-- C10: at a zero interest rate the equal-installment annuity divisor
`(1+r)^n - 1` is exactly zero, so the source's payment expression divides by
zero; under the embedding's total-division semantics every payment and
principal portion collapses to zero, so the schedule fails to amortize the
loan (total payment 0, principal sum 0). -/
theorem C10_zero_rate_division (inp : LoanInputs)
    (hm : inp.repaymentMethod = RepaymentMethod.PrincipalInterestEqual)
    (hr : inp.interestRate = 0) :
    (1 + inp.interestRate / 100 / 12) ^
        (inp.loanTermYear * 12 - inp.gracePeriodYear * 12) - 1 = 0 ∧
    (calculateDSR inp).totalPayment = 0 ∧
    ((calculateDSR inp).monthlyPayments.map fun e => e.principal).sum = 0 ∧
    (inp.applyStressDsr = false → totalStressInterest inp = 0) := by
  have hr0 : inp.interestRate / 100 / 12 = 0 := by
    rw [hr]
    norm_num
  refine ⟨?_, ?_, ?_, fun hs => ?_⟩
  · rw [hr0]
    norm_num
  · show (actualLoop inp.loanAmount inp.repaymentMethod (inp.loanTermYear * 12)
      (inp.gracePeriodYear * 12) (inp.interestRate / 100 / 12)
      (inp.loanTermYear * 12)).totalPayment = 0
    rw [hm, hr0]
    exact totalPayment_zero_rate _ _ _ _
  · rw [calculateDSR_monthlyPayments, hm, hr0]
    exact sum_principal_zero_rate _ _ _ _
  · have hsr : (inp.interestRate + stressDsrAddOn inp.applyStressDsr) / 100 / 12 = 0 := by
      rw [hr, hs]
      norm_num [stressDsrAddOn]
    unfold totalStressInterest
    rw [hsr, stressLoop_eq]
    exact totalInterest_zero_rate _ _ _ _ _

/-- Witness for C10 at a concrete zero-rate equal-installment input with a
positive loan amount (which the degenerate schedule therefore never
repays). -/
theorem C10_zero_rate_division_witness :
    (1 + exC10.interestRate / 100 / 12) ^
        (exC10.loanTermYear * 12 - exC10.gracePeriodYear * 12) - 1 = 0 ∧
    (calculateDSR exC10).totalPayment = 0 ∧
    ((calculateDSR exC10).monthlyPayments.map fun e => e.principal).sum = 0 ∧
    totalStressInterest exC10 = 0 :=
  have h := C10_zero_rate_division exC10 rfl rfl
  ⟨h.1, h.2.1, h.2.2.1, h.2.2.2 rfl⟩

end DSR
